import Mathlib

/-!
Verification of the smart_pdf backend (PDF upload / ask / summary / search
service).  Python strings are modelled as `List Char`; PDF byte buffers are
modelled by the list of per-page extraction outcomes their parse produces;
the external AI provider is modelled as an explicit oracle parameter.
Floating-point similarity scores are modelled over `ℚ` (the claims settled
here depend only on ordering and lengths, never on rounding).
-/

namespace SmartPdf

/-- Python `str.split()` splits on runs of whitespace and drops empty tokens.
Auxiliary accumulator-based scanner over the characters. -/
def pySplitAux : List Char → List Char → List (List Char)
  | [], acc => if acc = [] then [] else [acc.reverse]
  | c :: cs, acc =>
    if c.isWhitespace then
      if acc = [] then pySplitAux cs [] else acc.reverse :: pySplitAux cs []
    else pySplitAux cs (c :: acc)

/-- Python `text.split()` (no separator argument). -/
def pySplit (s : List Char) : List (List Char) := pySplitAux s []

/-- Python `sep.join(words)` for a separator string `sep`. -/
def pyJoin (sep : List Char) : List (List Char) → List Char
  | [] => []
  | [w] => w
  | w :: w' :: ws => w ++ sep ++ pyJoin sep (w' :: ws)

/-- The word-accumulation loop of `chunk_text` (src/backend/pdf_utils.py):
walks the word list, appending to `current` and emitting a chunk each time
`current` reaches `max_tokens` words; a nonempty remainder is emitted last. -/
def chunkGo (maxTokens : Nat) : List (List Char) → List (List Char) → List (List (List Char))
  | [], current => if current = [] then [] else [current]
  | w :: ws, current =>
    let cur := current ++ [w]
    if maxTokens ≤ cur.length then cur :: chunkGo maxTokens ws []
    else chunkGo maxTokens ws cur

/-- `chunk_text(text, max_tokens=400)` from src/backend/pdf_utils.py:
word-based chunks of at most `max_tokens` words, each chunk the
space-join of its words. -/
def chunk_text (text : List Char) (max_tokens : Nat := 400) : List (List Char) :=
  (chunkGo max_tokens (pySplit text) []).map (pyJoin [' '])

example : chunk_text "a b c d e".toList 2 =
    ["a b".toList, "c d".toList, "e".toList] := by decide

example : chunk_text "".toList 3 = [] := by decide

example : pySplit "  hi   there ".toList = ["hi".toList, "there".toList] := by decide

/-- Concatenating the word groups emitted by the chunk loop yields the
pending group followed by the remaining input words. -/
theorem chunkGo_join (n : Nat) : ∀ (ws cur : List (List Char)),
    (chunkGo n ws cur).flatten = cur ++ ws
  | [], cur => by
    by_cases h : cur = [] <;> simp [chunkGo, h]
  | w :: ws, cur => by
    by_cases h : n ≤ cur.length + 1 <;>
      simp [chunkGo, h, chunkGo_join n ws, chunkGo_join n ws (cur ++ [w])]

/-- Every group emitted by the chunk loop, except possibly the last, has
exactly `n` words, provided the pending group is still below `n`. -/
theorem chunkGo_dropLast_length (n : Nat) : ∀ (ws cur : List (List Char)),
    cur.length < n → ∀ c ∈ (chunkGo n ws cur).dropLast, c.length = n
  | [], cur => by
    intro hcur c hc
    by_cases h : cur = [] <;> simp [chunkGo, h] at hc
  | w :: ws, cur => by
    intro hcur c hc
    by_cases h : n ≤ (cur ++ [w]).length
    · simp only [chunkGo, h, if_pos] at hc
      have hlen : (cur ++ [w]).length = n := by
        simp only [List.length_append, List.length_singleton] at h ⊢
        omega
      rcases hrest : chunkGo n ws [] with _ | ⟨r, rs⟩
      · rw [hrest] at hc; simp at hc
      · rw [hrest, List.dropLast_cons₂] at hc
        rcases List.mem_cons.mp hc with rfl | hmem
        · exact hlen
        · rw [← hrest] at hmem
          exact chunkGo_dropLast_length n ws []
            (by simp only [List.length_nil]; omega) c hmem
    · simp only [chunkGo, h, if_neg, not_false_iff] at hc
      have : (cur ++ [w]).length < n := by
        simp only [List.length_append, List.length_singleton] at h ⊢
        omega
      exact chunkGo_dropLast_length n ws (cur ++ [w]) this c hc

/-- No empty group is ever emitted by the chunk loop. -/
theorem chunkGo_ne_nil (n : Nat) : ∀ (ws cur : List (List Char)),
    ∀ c ∈ chunkGo n ws cur, c ≠ []
  | [], cur => by
    intro c hc
    by_cases h : cur = [] <;> simp [chunkGo, h] at hc
    simp [hc, h]
  | w :: ws, cur => by
    intro c hc
    by_cases h : n ≤ (cur ++ [w]).length
    · simp only [chunkGo, h, if_pos] at hc
      rcases List.mem_cons.mp hc with rfl | hmem
      · simp
      · exact chunkGo_ne_nil n ws [] c hmem
    · simp only [chunkGo, h, if_neg, not_false_iff] at hc
      exact chunkGo_ne_nil n ws (cur ++ [w]) c hc

/-- Every word produced by the split scanner is nonempty and free of
whitespace characters (given a whitespace-free accumulator). -/
theorem pySplitAux_clean : ∀ (s acc : List Char),
    (∀ ch ∈ acc, ch.isWhitespace = false) →
    ∀ w ∈ pySplitAux s acc, w ≠ [] ∧ ∀ ch ∈ w, ch.isWhitespace = false
  | [], acc => by
    intro hacc w hw
    by_cases h : acc = [] <;> simp [pySplitAux, h] at hw
    subst hw
    refine ⟨by simp [h], ?_⟩
    intro ch hch
    exact hacc ch (List.mem_reverse.mp hch)
  | c :: cs, acc => by
    intro hacc w hw
    by_cases hws : c.isWhitespace
    · by_cases h : acc = []
      · simp only [pySplitAux, hws, if_pos, h, if_pos] at hw
        exact pySplitAux_clean cs [] (by simp) w hw
      · simp only [pySplitAux, hws, if_pos, h, if_neg, not_false_iff] at hw
        rcases List.mem_cons.mp hw with rfl | hmem
        · refine ⟨by simp [h], ?_⟩
          intro ch hch
          exact hacc ch (List.mem_reverse.mp hch)
        · exact pySplitAux_clean cs [] (by simp) w hmem
    · simp only [pySplitAux, hws, if_neg, not_false_iff] at hw
      refine pySplitAux_clean cs (c :: acc) ?_ w hw
      intro ch hch
      rcases List.mem_cons.mp hch with rfl | hmem
      · exact Bool.not_eq_true _ ▸ (by simpa using hws)
      · exact hacc ch hmem

/-- Scanning a whitespace-free word just shifts it into the accumulator. -/
theorem pySplitAux_append_word : ∀ (w : List Char),
    (∀ ch ∈ w, ch.isWhitespace = false) →
    ∀ (cs acc : List Char), pySplitAux (w ++ cs) acc = pySplitAux cs (w.reverse ++ acc)
  | [], _, cs, acc => by simp
  | c :: w', hw, cs, acc => by
    have hc : c.isWhitespace = false := hw c (by simp)
    have hw' : ∀ ch ∈ w', ch.isWhitespace = false := fun ch hch => hw ch (by simp [hch])
    have hstep : pySplitAux ((c :: w') ++ cs) acc = pySplitAux (w' ++ cs) (c :: acc) := by
      show pySplitAux (c :: (w' ++ cs)) acc = _
      simp [pySplitAux, hc]
    rw [hstep, pySplitAux_append_word w' hw' cs (c :: acc)]
    simp

/-- Splitting the space-join of a list of nonempty whitespace-free words
recovers exactly that list (Python `" ".join(ws).split() == ws`). -/
theorem pySplit_pyJoin : ∀ (ws : List (List Char)),
    (∀ w ∈ ws, w ≠ [] ∧ ∀ ch ∈ w, ch.isWhitespace = false) →
    pySplit (pyJoin [' '] ws) = ws
  | [], _ => rfl
  | [w], h => by
    obtain ⟨hne, hcl⟩ := h w (by simp)
    have := pySplitAux_append_word w hcl [] []
    simp only [List.append_nil] at this
    unfold pySplit
    rw [show pyJoin [' '] [w] = w from rfl, this]
    simp [pySplitAux, hne]
  | w :: w' :: ws, h => by
    obtain ⟨hne, hcl⟩ := h w (by simp)
    have htail : ∀ u ∈ w' :: ws, u ≠ [] ∧ ∀ ch ∈ u, ch.isWhitespace = false :=
      fun u hu => h u (by simp [hu])
    unfold pySplit
    have hjoin : pyJoin [' '] (w :: w' :: ws) = w ++ (' ' :: pyJoin [' '] (w' :: ws)) := by
      simp [pyJoin]
    rw [hjoin, pySplitAux_append_word w hcl _ []]
    simp only [List.append_nil, pySplitAux]
    rw [if_pos (by decide), if_neg (by simp [hne])]
    rw [show pySplitAux (pyJoin [' '] (w' :: ws)) [] = pySplit (pyJoin [' '] (w' :: ws)) from rfl]
    rw [pySplit_pyJoin (w' :: ws) htail]
    simp

/-- Every word of the full split of a text is nonempty and whitespace-free. -/
theorem pySplit_clean (text : List Char) :
    ∀ w ∈ pySplit text, w ≠ [] ∧ ∀ ch ∈ w, ch.isWhitespace = false :=
  pySplitAux_clean text [] (by simp)

/-- Every word group emitted by `chunkGo` over the split of a text consists
of nonempty whitespace-free words, so the space-join/split roundtrip applies. -/
theorem chunkGo_groups_clean (n : Nat) (text : List Char) :
    ∀ g ∈ chunkGo n (pySplit text) [], pySplit (pyJoin [' '] g) = g := by
  intro g hg
  refine pySplit_pyJoin g ?_
  intro w hw
  have hwj : w ∈ (chunkGo n (pySplit text) []).flatten :=
    List.mem_flatten.mpr ⟨g, hg, hw⟩
  rw [chunkGo_join n (pySplit text) []] at hwj
  exact pySplit_clean text w (by simpa using hwj)

/-- C1: for every text and every `maxWords = N ≥ 1`, `chunk_text` returns an
ordered sequence of chunks in which every chunk except possibly the last
contains exactly `N` whitespace-delimited words, concatenating the chunks'
word sequences in order reproduces exactly the word sequence of the original
text (`text.split()`), and zero-length input yields an empty sequence. -/
theorem chunk_text_correct (text : List Char) (N : Nat) (hN : 1 ≤ N) :
    (∀ c ∈ (chunk_text text N).dropLast, (pySplit c).length = N) ∧
    ((chunk_text text N).map pySplit).flatten = pySplit text ∧
    (text = [] → chunk_text text N = []) := by
  refine ⟨?_, ?_, ?_⟩
  · intro c hc
    unfold chunk_text at hc
    rw [← List.map_dropLast] at hc
    rcases List.mem_map.mp hc with ⟨g, hg, rfl⟩
    have hgmem : g ∈ chunkGo N (pySplit text) [] :=
      (List.dropLast_sublist _).subset hg
    rw [chunkGo_groups_clean N text g hgmem]
    exact chunkGo_dropLast_length N (pySplit text) []
      (by simp only [List.length_nil]; omega) g hg
  · unfold chunk_text
    rw [List.map_map]
    have : ∀ g ∈ chunkGo N (pySplit text) [],
        (pySplit ∘ pyJoin [' ']) g = id g := by
      intro g hg
      simpa using chunkGo_groups_clean N text g hg
    rw [List.map_congr_left this, List.map_id]
    exact chunkGo_join N (pySplit text) []
  · intro h
    subst h
    rfl

/-- Witness for C1 at `text = "a b c"`, `N = 2`. -/
theorem chunk_text_correct_witness :
    (∀ c ∈ (chunk_text "a b c".toList 2).dropLast, (pySplit c).length = 2) ∧
    ((chunk_text "a b c".toList 2).map pySplit).flatten = pySplit "a b c".toList ∧
    ("a b c".toList = [] → chunk_text "a b c".toList 2 = []) :=
  chunk_text_correct "a b c".toList 2 (by decide)

/-- The while-loop of `split_text` (src/backend/main.py): from `start`,
emit `text[start:start+chunk_size]` and advance by
`chunk_size - chunk_overlap`, while `start < len(text)`.  The loop only
terminates when the overlap is strictly below the chunk size, which holds
for the concrete arguments used by the code. -/
def splitGo (text : List Char) (chunk_size chunk_overlap : Nat)
    (hlt : chunk_overlap < chunk_size) (start : Nat) : List (List Char) :=
  if _h : start < text.length then
    ((text.drop start).take chunk_size) ::
      splitGo text chunk_size chunk_overlap hlt (start + (chunk_size - chunk_overlap))
  else []
termination_by text.length - start
decreasing_by
  have : 1 ≤ chunk_size - chunk_overlap := by omega
  omega

/-- `split_text(text)` from src/backend/main.py with its default parameters
`chunk_size=1000`, `chunk_overlap=200`. -/
def split_text (text : List Char) : List (List Char) :=
  splitGo text 1000 200 (by norm_num) 0

example : split_text [] = [] := by
  rw [split_text, splitGo]
  simp

/-- Shape of `splitGo` when the loop guard fails. -/
theorem splitGo_stop (text : List Char) (cs co : Nat) (h : co < cs) (start : Nat)
    (hge : ¬ start < text.length) : splitGo text cs co h start = [] := by
  rw [splitGo]
  simp [hge]

/-- Shape of `splitGo` when the loop guard holds. -/
theorem splitGo_step (text : List Char) (cs co : Nat) (h : co < cs) (start : Nat)
    (hlt : start < text.length) :
    splitGo text cs co h start =
      ((text.drop start).take cs) :: splitGo text cs co h (start + (cs - co)) := by
  rw [splitGo]
  simp [hlt]

/-- The `i`-th chunk produced by `splitGo` starting at `start` is the slice
beginning at `start + step * i`, present exactly when that offset lies
inside the text. -/
theorem splitGo_getElem? (text : List Char) (cs co : Nat) (h : co < cs) :
    ∀ (start i : Nat),
      (splitGo text cs co h start)[i]? =
        if start + (cs - co) * i < text.length then
          some ((text.drop (start + (cs - co) * i)).take cs)
        else none := by
  have H : ∀ (fuel start : Nat), text.length - start ≤ fuel → ∀ i : Nat,
      (splitGo text cs co h start)[i]? =
        if start + (cs - co) * i < text.length then
          some ((text.drop (start + (cs - co) * i)).take cs)
        else none := by
    intro fuel
    induction fuel with
    | zero =>
      intro start hfuel i
      have hs : ¬ start < text.length := by omega
      rw [splitGo_stop text cs co h start hs]
      have : ¬ start + (cs - co) * i < text.length := by omega
      simp [this]
    | succ n ihn =>
      intro start hfuel i
      by_cases hs : start < text.length
      · rw [splitGo_step text cs co h start hs]
        cases i with
        | zero => simp [hs]
        | succ j =>
          have hstep : 1 ≤ cs - co := by omega
          have := ihn (start + (cs - co)) (by omega) j
          simp only [List.getElem?_cons_succ, this]
          have harith : start + (cs - co) + (cs - co) * j = start + (cs - co) * (j + 1) := by
            ring_nf
          rw [harith]
      · rw [splitGo_stop text cs co h start hs]
        have : ¬ start + (cs - co) * i < text.length := by omega
        simp [this]
  exact fun start i => H (text.length - start) start le_rfl i

/-- C10 (implicit): `split_text` with its defaults (`chunk_size=1000`,
`chunk_overlap=200`) terminates (it is a total function) and loses no text:
the empty string yields an empty list; the `i`-th chunk exists exactly when
`800*i` is inside the text and is the 1000-character slice starting there
(so the first chunk starts at index 0 and each subsequent chunk starts
exactly 800 characters after the previous one); and every character
position of the input is covered by at least one returned chunk. -/
theorem split_text_correct (text : List Char) :
    (text = [] → split_text text = []) ∧
    (∀ i : Nat, (split_text text)[i]? =
        if 800 * i < text.length then
          some ((text.drop (800 * i)).take 1000)
        else none) ∧
    (∀ p : Nat, p < text.length →
        ∃ i : Nat, (split_text text)[i]? = some ((text.drop (800 * i)).take 1000) ∧
          800 * i ≤ p ∧ p < 800 * i + 1000) := by
  have hshape : ∀ i : Nat, (split_text text)[i]? =
      if 800 * i < text.length then
        some ((text.drop (800 * i)).take 1000)
      else none := by
    intro i
    have := splitGo_getElem? text 1000 200 (by norm_num) 0 i
    simpa using this
  refine ⟨?_, hshape, ?_⟩
  · intro h
    subst h
    rw [split_text, splitGo]
    simp
  · intro p hp
    have h2 : p % 800 < 800 := Nat.mod_lt p (by norm_num)
    have h3 : 800 * (p / 800) + p % 800 = p := Nat.div_add_mod p 800
    refine ⟨p / 800, ?_, by omega, by omega⟩
    rw [hshape, if_pos (by omega)]

/-- Outcome of `page.extract_text()` for one parsed PDF page: extracted
text, a Python `None` (which `or ""` turns into the empty string), or a
raised exception (which the `except` clause turns into the empty string). -/
inductive PageResult where
  | ok (text : List Char)
  | noText
  | err
deriving DecidableEq

/-- The page's contribution to the extracted document text, following the
`try`/`except`/`or ""` logic of the per-page loop. -/
def pageText : PageResult → List Char
  | .ok t => t
  | .noText => []
  | .err => []

/-- `extract_text_from_pdf` (src/backend/pdf_utils.py): page-by-page
extraction, each failed or text-less page contributing the empty string,
all contributions joined with `"\n"`.  A PDF byte buffer is modelled by the
list of page outcomes its parse yields. -/
def extract_text_from_pdf (pages : List PageResult) : List Char :=
  pyJoin ['\n'] (pages.map pageText)

/-- Joining `n` empty strings with `"\n"` yields `n - 1` newlines. -/
theorem pyJoin_replicate_nil : ∀ n : Nat,
    pyJoin ['\n'] (List.replicate n ([] : List Char)) = List.replicate (n - 1) '\n'
  | 0 => rfl
  | 1 => rfl
  | n + 2 => by
    show pyJoin ['\n'] ([] :: [] :: List.replicate n []) = _
    have : pyJoin ['\n'] ([] :: [] :: List.replicate n [])
        = [] ++ ['\n'] ++ pyJoin ['\n'] ([] :: List.replicate n []) := rfl
    rw [this, show ([] :: List.replicate n ([] : List Char))
        = List.replicate (n + 1) [] from rfl,
      pyJoin_replicate_nil (n + 1)]
    simp [List.replicate_succ]

/-- C4 counterexample: a two-page PDF in which extraction fails on every
page, so no text is recoverable from any page, yet the function returns
the one-character string `"\n"`, not the empty string. -/
theorem extract_text_empty_cex :
    (∀ p ∈ [PageResult.err, PageResult.err], pageText p = []) ∧
    extract_text_from_pdf [PageResult.err, PageResult.err] = ['\n'] ∧
    ['\n'] ≠ ([] : List Char) := by decide

/-- C4 (amended): `extract_text_from_pdf` concatenates the pages' extracted
texts with newline separators and a failing page contributes an empty
string rather than aborting the document (replacing a failing page by an
empty-text page leaves the result unchanged); when no text is recoverable
from any page the result consists solely of the newline separators —
`numPages - 1` newline characters — which is the empty string exactly when
the PDF has at most one page. -/
theorem extract_text_amended (pages : List PageResult) :
    (∀ pre post : List PageResult,
        extract_text_from_pdf (pre ++ PageResult.err :: post) =
          extract_text_from_pdf (pre ++ PageResult.ok [] :: post)) ∧
    ((∀ p ∈ pages, pageText p = []) →
        extract_text_from_pdf pages = List.replicate (pages.length - 1) '\n') ∧
    ((∀ p ∈ pages, pageText p = []) →
        (extract_text_from_pdf pages = [] ↔ pages.length ≤ 1)) := by
  have hempty : (∀ p ∈ pages, pageText p = []) →
      extract_text_from_pdf pages = List.replicate (pages.length - 1) '\n' := by
    intro hall
    have hmap : pages.map pageText = List.replicate pages.length [] := by
      refine List.eq_replicate_iff.mpr ⟨by simp, ?_⟩
      intro b hb
      rcases List.mem_map.mp hb with ⟨p, hp, rfl⟩
      exact hall p hp
    rw [extract_text_from_pdf, hmap, pyJoin_replicate_nil]
  refine ⟨?_, hempty, ?_⟩
  · intro pre post
    rw [extract_text_from_pdf, extract_text_from_pdf]
    simp [pageText]
  · intro hall
    rw [hempty hall]
    constructor
    · intro hnil
      have := congrArg List.length hnil
      simp at this
      omega
    · intro hle
      have : pages.length - 1 = 0 := by omega
      rw [this]
      rfl

/-- Witness for C4's amended theorem at the two-failing-pages input. -/
theorem extract_text_amended_witness :
    extract_text_from_pdf [PageResult.err, PageResult.err] =
      List.replicate ([PageResult.err, PageResult.err].length - 1) '\n' :=
  (extract_text_amended [PageResult.err, PageResult.err]).2.1 (by decide)

/-- Descending-score comparison on chunk indices: `simGE sims i j` holds
when index `i` scores at least as high as index `j`. -/
def simGE (sims : List ℚ) (i j : Nat) : Prop := sims.getD j 0 ≤ sims.getD i 0

instance (sims : List ℚ) : DecidableRel (simGE sims) :=
  fun i j => inferInstanceAs (Decidable (sims.getD j 0 ≤ sims.getD i 0))

instance (sims : List ℚ) : IsTotal Nat (simGE sims) :=
  ⟨fun i j => le_total (sims.getD j 0) (sims.getD i 0)⟩

instance (sims : List ℚ) : IsTrans Nat (simGE sims) :=
  ⟨fun _ _ _ hab hbc => le_trans hbc hab⟩

/-- `np.argsort(-sims)[:]` : the indices `0 .. n-1` ordered by descending
similarity score (the numpy sort's tie order is implementation-defined;
a stable insertion sort is one refinement of it). -/
def argsortDesc (sims : List ℚ) : List Nat :=
  List.insertionSort (simGE sims) (List.range sims.length)

/-- `top_k_chunks` (src/backend/pdf_utils.py).  The floating-point cosine
similarity row `cosine_similarity_matrix(query_emb[None, :], doc_embs)[0]`
is abstracted as the score vector `sims` over `ℚ` (one score per row of
`doc_embs`); the function takes the `k` highest-scoring indices and returns
the corresponding chunk/score pairs. -/
def top_k_chunks (sims : List ℚ) (chunks : List (List Char)) (k : Nat) :
    List (List Char × ℚ) :=
  ((argsortDesc sims).take k).map (fun i => (chunks.getD i [], sims.getD i 0))

/-- C9: for every score vector over `n` document rows, parallel chunk list
of length `n`, and `k ≥ 1`, `top_k_chunks` returns exactly `min k n`
chunk/score pairs, drawn from pairwise-distinct chunk indices, ordered by
descending similarity score (so with `k = 5` over 3 chunks it returns
exactly 3 results). -/
theorem top_k_chunks_correct (sims : List ℚ) (chunks : List (List Char)) (k : Nat)
    (_hpar : chunks.length = sims.length) (_hk : 1 ≤ k) :
    (top_k_chunks sims chunks k).length = min k sims.length ∧
    ((argsortDesc sims).take k).Nodup ∧
    (top_k_chunks sims chunks k).Sorted (fun p q => q.2 ≤ p.2) := by
  have hperm : List.Perm (argsortDesc sims) (List.range sims.length) :=
    List.perm_insertionSort (simGE sims) (List.range sims.length)
  refine ⟨?_, ?_, ?_⟩
  · rw [top_k_chunks, List.length_map, List.length_take,
      hperm.length_eq, List.length_range]
  · have hnd : (argsortDesc sims).Nodup := hperm.nodup_iff.mpr (List.nodup_range _)
    exact hnd.sublist (List.take_sublist k _)
  · have hsorted : (argsortDesc sims).Sorted (simGE sims) :=
      List.sorted_insertionSort (simGE sims) (List.range sims.length)
    have htake : ((argsortDesc sims).take k).Sorted (simGE sims) :=
      hsorted.sublist (List.take_sublist k _)
    exact List.Pairwise.map _ (fun i j hij => hij) htake

/-- Witness for C9: scores `[1/2, 3, 2]`, three chunks, `k = 5`, giving
`min 5 3 = 3` results. -/
theorem top_k_chunks_correct_witness :
    (top_k_chunks [(1 : ℚ)/2, 3, 2] ["a".toList, "b".toList, "c".toList] 5).length =
      min 5 ([(1 : ℚ)/2, 3, 2] : List ℚ).length ∧
    ((argsortDesc [(1 : ℚ)/2, 3, 2]).take 5).Nodup ∧
    (top_k_chunks [(1 : ℚ)/2, 3, 2] ["a".toList, "b".toList, "c".toList] 5).Sorted
      (fun p q => q.2 ≤ p.2) :=
  top_k_chunks_correct [(1 : ℚ)/2, 3, 2] ["a".toList, "b".toList, "c".toList] 5
    (by decide) (by decide)

/-- Python `s.lower()` (ASCII lowering suffices for the rate-limit markers). -/
def pyLower (s : List Char) : List Char := s.map Char.toLower

/-- `needle` occurs at the very start of `hay`. -/
def listStarts : List Char → List Char → Bool
  | _, [] => true
  | [], _ :: _ => false
  | h :: t, n :: ns => h == n && listStarts t ns

/-- Python `needle in hay` substring containment. -/
def hasSubstring : List Char → List Char → Bool
  | hay, needle =>
    listStarts hay needle ||
      match hay with
      | [] => false
      | _ :: t => hasSubstring t needle

/-- The rate-limit test of `_retry_with_backoff` (src/backend/llm_client.py):
`"429" in msg or "quota" in msg.lower() or "rate limit" in msg.lower()`. -/
def isRateLimitMsg (msg : List Char) : Bool :=
  hasSubstring msg "429".toList ||
  hasSubstring (pyLower msg) "quota".toList ||
  hasSubstring (pyLower msg) "rate limit".toList

/-- The body of `_retry_with_backoff`'s `for attempt in range(max_retries)`
loop (src/backend/llm_client.py), iterating over the list of attempt
numbers.  `func attempt` is the outcome of the wrapped provider call on that
attempt (`.ok` result, or the raised exception's message).  A rate-limited
error with attempts remaining continues the loop; any other error is
re-raised at once.  Sleeping between attempts is not modelled.  `none` is
returned only when the loop falls off the end (Python returns `None`). -/
def retryOver (func : Nat → Except (List Char) α) (max_retries : Nat) :
    List Nat → Option (Except (List Char) α)
  | [] => none
  | attempt :: rest =>
    match func attempt with
    | .ok a => some (.ok a)
    | .error e =>
      if isRateLimitMsg e ∧ attempt < max_retries - 1 then
        retryOver func max_retries rest
      else some (.error e)

/-- `_retry_with_backoff(func, max_retries=3, initial_delay=1.0)`. -/
def retry_with_backoff (func : Nat → Except (List Char) α)
    (max_retries : Nat := 3) : Option (Except (List Char) α) :=
  retryOver func max_retries (List.range max_retries)

/-- If some pending attempt number fails the continue-condition bound, the
loop produces an outcome (success or a re-raised error), never `none`. -/
theorem retryOver_isSome (func : Nat → Except (List Char) α) (m : Nat) :
    ∀ l : List Nat, (∃ a ∈ l, ¬ a < m - 1) → (retryOver func m l).isSome
  | [], h => by simp at h
  | attempt :: rest, h => by
    rw [retryOver]
    cases hfa : func attempt with
    | ok v => simp
    | error e =>
      by_cases hc : isRateLimitMsg e ∧ attempt < m - 1
      · simp only [if_pos hc]
        rcases h with ⟨a, ha, hbound⟩
        rcases List.mem_cons.mp ha with rfl | hmem
        · exact absurd hc.2 hbound
        · exact retryOver_isSome func m rest ⟨a, hmem, hbound⟩
      · simp only [if_neg hc]
        simp

/-- With at least one permitted attempt, `_retry_with_backoff` always
produces an outcome, never `none`. -/
theorem retry_with_backoff_isSome (func : Nat → Except (List Char) α)
    (m : Nat) (hm : 1 ≤ m) : (retry_with_backoff func m).isSome := by
  refine retryOver_isSome func m (List.range m) ⟨m - 1, ?_, by omega⟩
  exact List.mem_range.mpr (by omega)

/-- `LLMClient.embed` (src/backend/llm_client.py): one provider call per
text, each wrapped in `_retry_with_backoff` at its default
`max_retries = 3`; a text whose retried call still fails (or whose loop
yields `None`) contributes a zero vector of length 768 instead of failing
the batch.  `provider text attempt` is the outcome of `genai.embed_content`
for `text` on the given attempt; embedding vectors are modelled over `ℚ`. -/
def embed (provider : List Char → Nat → Except (List Char) (List ℚ))
    (texts : List (List Char)) : List (List ℚ) :=
  texts.map fun t =>
    match retry_with_backoff (provider t) 3 with
    | some (.ok v) => v
    | some (.error _) => List.replicate 768 0
    | none => List.replicate 768 0

/-- A provider that rate-limits the first attempt for every text and
succeeds on the second with the embedding `[1]`. -/
def rateLimitedOnceProvider : List Char → Nat → Except (List Char) (List ℚ) :=
  fun _ attempt => if attempt = 0 then .error "429".toList else .ok [1]

/-- C3 counterexample: for the single text `"x"` the provider call fails on
its first attempt, so under the claim (no retry wrapping) `embed` would have
to substitute the zero vector of length 768; instead the call is wrapped in
the retry-with-backoff policy, is retried, and the batch returns the second
attempt's embedding `[1]`. -/
theorem embed_no_retry_cex :
    rateLimitedOnceProvider "x".toList 0 = Except.error "429".toList ∧
    embed rateLimitedOnceProvider ["x".toList] = [[(1 : ℚ)]] ∧
    [[(1 : ℚ)]] ≠ [List.replicate 768 (0 : ℚ)] := by
  exact ⟨rfl, by decide, by decide⟩

/-- Auxiliary: `getD` through `map` at an in-range index. -/
theorem mapGetD (f : List Char → List ℚ) (l : List (List Char)) (i : Nat)
    (hi : i < l.length) : (l.map f).getD i [] = f (l.getD i []) := by
  rw [List.getD_eq_getElem?_getD, List.getD_eq_getElem?_getD, List.getElem?_map,
    List.getElem?_eq_getElem hi]
  simp

/-- C3 (amended): embedding calls ARE wrapped in the retry-with-backoff
policy at its default `max_retries = 3`; for every input list of texts the
result has exactly one vector per text, a text whose retried call succeeds
contributes the returned embedding, and a text whose retried call still
fails contributes a zero vector of length 768 — so the whole batch never
fails. -/
theorem embed_retry_fallback (provider : List Char → Nat → Except (List Char) (List ℚ))
    (texts : List (List Char)) :
    (embed provider texts).length = texts.length ∧
    (∀ i : Nat, i < texts.length →
      (∀ v, retry_with_backoff (provider (texts.getD i [])) 3 = some (Except.ok v) →
        (embed provider texts).getD i [] = v) ∧
      (∀ e, retry_with_backoff (provider (texts.getD i [])) 3 = some (Except.error e) →
        (embed provider texts).getD i [] = List.replicate 768 0)) := by
  refine ⟨by rw [embed, List.length_map], ?_⟩
  intro i hi
  have hmap := mapGetD (fun t =>
    match retry_with_backoff (provider t) 3 with
    | some (.ok v) => v
    | some (.error _) => List.replicate 768 0
    | none => List.replicate 768 0) texts i hi
  constructor
  · intro v hv
    rw [embed, hmap]
    simp only [hv]
  · intro e he
    rw [embed, hmap]
    simp only [he]

/-- A provider whose every attempt fails with a non-rate-limit error. -/
def alwaysFailProvider : List Char → Nat → Except (List Char) (List ℚ) :=
  fun _ _ => Except.error "boom".toList

/-- Witness for C3's amended theorem: with an always-failing provider and a
one-text batch, the result is the single zero vector of length 768. -/
theorem embed_retry_fallback_witness :
    (embed alwaysFailProvider ["x".toList]).getD 0 [] = List.replicate 768 0 :=
  ((embed_retry_fallback alwaysFailProvider ["x".toList]).2 0 (by decide)).2
    "boom".toList rfl

/-- The `LLMClient.response_cache` dict, keyed by Python `hash` values.
Modelled as an association list with first-match lookup; dict assignment is
a front insertion (so the newest binding for a key wins, as in a dict). -/
def Cache : Type := List (Int × List Char)

/-- `cache_key in self.response_cache` / `self.response_cache[cache_key]`. -/
def cacheLookup : Cache → Int → Option (List Char)
  | ([] : List (Int × List Char)), _ => none
  | ((k, v) :: rest : List (Int × List Char)), key =>
      if key = k then some v else cacheLookup rest key

/-- `self.response_cache[cache_key] = v`. -/
def cacheInsert (cache : Cache) (key : Int) (v : List Char) : Cache :=
  ((key, v) :: (cache : List (Int × List Char)) : List (Int × List Char))

/-- `LLMClient.generate` (src/backend/llm_client.py).  `hashFn` models
Python's `hash` on the concatenated prompt string; `func attempt` models the
outcome of `generate_func` on the given attempt (the generated text, or the
raised exception's message).  A cache hit returns the cached response
without touching the provider; otherwise the provider call is wrapped in
`_retry_with_backoff(..., max_retries=4, initial_delay=2.0)` and the result
— including the `"Error: <message>"` string produced when the call still
fails — is cached and returned together with the updated cache. -/
def generate (hashFn : List Char → Int) (func : Nat → Except (List Char) (List Char))
    (cache : Cache) (system_prompt user_prompt : List Char) :
    List Char × Cache :=
  let cache_key := hashFn (system_prompt ++ user_prompt)
  match cacheLookup cache cache_key with
  | some v => (v, cache)
  | none =>
    match retry_with_backoff func 4 with
    | some (Except.ok result) => (result, cacheInsert cache cache_key result)
    | some (Except.error e) =>
      let error_response := "Error: ".toList ++ e
      (error_response, cacheInsert cache cache_key error_response)
    | none =>
      -- unreachable: `retry_with_backoff_isSome` rules this branch out
      -- for `max_retries = 4`
      ([], cache)

/-- After any `generate` call the prompt-hash key maps to the returned
response in the resulting cache. -/
theorem generate_caches (hashFn : List Char → Int)
    (func : Nat → Except (List Char) (List Char)) (cache : Cache)
    (sp up : List Char) :
    cacheLookup (generate hashFn func cache sp up).2 (hashFn (sp ++ up)) =
      some (generate hashFn func cache sp up).1 := by
  have hsome : (retry_with_backoff func 4).isSome :=
    retry_with_backoff_isSome func 4 (by omega)
  rw [generate]
  rcases hl : cacheLookup cache (hashFn (sp ++ up)) with _ | v
  · simp only [hl]
    rcases hr : retry_with_backoff func 4 with _ | r
    · rw [hr] at hsome; simp at hsome
    · cases r with
      | ok result => simp [cacheInsert, cacheLookup]
      | error e => simp [cacheInsert, cacheLookup]
  · simp only [hl]

/-- C5: `generate` always returns a string (it is a total function into
`List Char × Cache`); a cache hit returns the cached value with the cache
unchanged; on a miss the returned value — an `"Error: <message>"` string
when the retried call still fails — is stored in the cache under the prompt
hash; and a second call with the same two prompts on the resulting cache
returns text identical to the first call's, whatever the provider does on
the second call. -/
theorem generate_cache_correct (hashFn : List Char → Int)
    (func : Nat → Except (List Char) (List Char)) (cache : Cache)
    (sp up : List Char) :
    (∀ v, cacheLookup cache (hashFn (sp ++ up)) = some v →
        generate hashFn func cache sp up = (v, cache)) ∧
    (cacheLookup cache (hashFn (sp ++ up)) = none →
        ∀ e, retry_with_backoff func 4 = some (Except.error e) →
          (generate hashFn func cache sp up).1 = "Error: ".toList ++ e) ∧
    (cacheLookup cache (hashFn (sp ++ up)) = none →
        cacheLookup (generate hashFn func cache sp up).2 (hashFn (sp ++ up)) =
          some (generate hashFn func cache sp up).1) ∧
    (∀ func2, generate hashFn func2 (generate hashFn func cache sp up).2 sp up =
        ((generate hashFn func cache sp up).1,
          (generate hashFn func cache sp up).2)) := by
  have hsome : (retry_with_backoff func 4).isSome :=
    retry_with_backoff_isSome func 4 (by omega)
  refine ⟨?_, ?_, ?_, ?_⟩
  · intro v hv
    rw [generate]
    simp only [hv]
  · intro hmiss e he
    rw [generate]
    simp only [hmiss, he]
  · intro _
    exact generate_caches hashFn func cache sp up
  · intro func2
    conv_lhs => rw [generate]
    rw [generate_caches hashFn func cache sp up]

/-- Witness for C5 with a length-based hash, the provider answering `"hi"`
on every attempt, and an empty starting cache. -/
theorem generate_cache_correct_witness :
    (∀ v, cacheLookup ([] : List (Int × List Char)) ((fun s => (s.length : Int)) ("a".toList ++ "b".toList)) = some v →
        generate (fun s => (s.length : Int)) (fun _ => Except.ok "hi".toList)
          ([] : List (Int × List Char)) "a".toList "b".toList = (v, ([] : List (Int × List Char)))) ∧
    (cacheLookup ([] : List (Int × List Char)) ((fun s => (s.length : Int)) ("a".toList ++ "b".toList)) = none →
        ∀ e, retry_with_backoff (fun _ => Except.ok "hi".toList) 4 = some (Except.error e) →
          (generate (fun s => (s.length : Int)) (fun _ => Except.ok "hi".toList)
            ([] : List (Int × List Char)) "a".toList "b".toList).1 = "Error: ".toList ++ e) ∧
    (cacheLookup ([] : List (Int × List Char)) ((fun s => (s.length : Int)) ("a".toList ++ "b".toList)) = none →
        cacheLookup (generate (fun s => (s.length : Int)) (fun _ => Except.ok "hi".toList)
            ([] : List (Int × List Char)) "a".toList "b".toList).2
            ((fun s => (s.length : Int)) ("a".toList ++ "b".toList)) =
          some (generate (fun s => (s.length : Int)) (fun _ => Except.ok "hi".toList)
            ([] : List (Int × List Char)) "a".toList "b".toList).1) ∧
    (∀ func2, generate (fun s => (s.length : Int)) func2
        (generate (fun s => (s.length : Int)) (fun _ => Except.ok "hi".toList)
          ([] : List (Int × List Char)) "a".toList "b".toList).2 "a".toList "b".toList =
        ((generate (fun s => (s.length : Int)) (fun _ => Except.ok "hi".toList)
            ([] : List (Int × List Char)) "a".toList "b".toList).1,
          (generate (fun s => (s.length : Int)) (fun _ => Except.ok "hi".toList)
            ([] : List (Int × List Char)) "a".toList "b".toList).2)) :=
  generate_cache_correct (fun s => (s.length : Int)) (fun _ => Except.ok "hi".toList)
    ([] : List (Int × List Char)) "a".toList "b".toList

/-- Witness for C10 at a concrete 3-character text. -/
theorem split_text_correct_witness :
    ("abc".toList = [] → split_text "abc".toList = []) ∧
    (∀ i : Nat, (split_text "abc".toList)[i]? =
        if 800 * i < "abc".toList.length then
          some (("abc".toList.drop (800 * i)).take 1000)
        else none) ∧
    (∀ p : Nat, p < "abc".toList.length →
        ∃ i : Nat, (split_text "abc".toList)[i]? =
            some (("abc".toList.drop (800 * i)).take 1000) ∧
          800 * i ≤ p ∧ p < 800 * i + 1000) :=
  split_text_correct "abc".toList

/-- Python `text.strip()`: drop leading and trailing whitespace. -/
def pyStrip (s : List Char) : List Char :=
  ((s.dropWhile Char.isWhitespace).reverse.dropWhile Char.isWhitespace).reverse

/-- `s.endswith(suf)` on character lists. -/
def listEndsWith (s suf : List Char) : Bool :=
  listStarts s.reverse suf.reverse

/-- `file.filename.lower().endswith(".pdf")`. -/
def endsWithPdf (filename : List Char) : Bool :=
  listEndsWith (pyLower filename) ".pdf".toList

/-- A stored document record (`DOC_STORE[doc_id]`): the chunk list and the
embedding matrix, the latter modelled as the list of its rows. -/
structure DocRecord where
  chunks : List (List Char)
  embeddings : List (List ℚ)

instance : Inhabited DocRecord := ⟨⟨[], []⟩⟩

/-- `DOC_STORE`: the in-memory map from document identifier to record,
modelled as an association list with first-match lookup; storing a new
document is a front insertion. -/
abbrev DocStore := List (List Char × DocRecord)

/-- `doc_id in DOC_STORE` / `DOC_STORE[doc_id]`. -/
def storeLookup : DocStore → List Char → Option DocRecord
  | [], _ => none
  | (k, v) :: rest, key =>
      if key = k then some v else storeLookup rest key

/-- HTTP error outcomes raised by the handlers (`HTTPException`). -/
inductive HTTPError where
  | badRequest (detail : List Char)
  | notFound (detail : List Char)
  | serverError (detail : List Char)

/-- `UploadResponse` (src/backend/model.py). -/
structure UploadResponse where
  doc_id : List Char
  num_chunks : Nat

/-- `SearchHit` (src/backend/model.py); the float score is modelled in `ℚ`. -/
structure SearchHit where
  text : List Char
  score : ℚ

/-- `upload_pdf` (src/backend/app.py, primary service).  The uploaded PDF
byte content is modelled by the page outcomes of its parse; the provider by
the per-text/per-attempt embedding oracle of `embed`; `uuid.uuid4()` by the
`doc_id` parameter.  Returns the HTTP outcome together with the document
store after the request. -/
def upload_pdf (provider : List Char → Nat → Except (List Char) (List ℚ))
    (store : DocStore) (doc_id filename : List Char) (pages : List PageResult) :
    Except HTTPError UploadResponse × DocStore :=
  if !endsWithPdf filename then
    (Except.error (HTTPError.badRequest "Only PDF files are supported".toList), store)
  else
    let text := extract_text_from_pdf pages
    if pyStrip text = [] then
      (Except.error (HTTPError.badRequest "Could not extract text from PDF".toList), store)
    else
      let chunks := chunk_text text 400
      if chunks = [] then
        (Except.error (HTTPError.badRequest "No chunks created".toList), store)
      else
        (Except.ok ⟨doc_id, chunks.length⟩,
          (doc_id, ⟨chunks, embed provider chunks⟩) :: store)

/-- `ask_question` (src/backend/app.py).  `sims` abstracts the
floating-point similarity row between the embedded question and the stored
embedding matrix; `gen` abstracts `llm.generate`.  The store is only read. -/
def ask_question (sims : List ℚ) (gen : List Char → List Char → List Char)
    (store : DocStore) (doc_id question : List Char) :
    Except HTTPError (List Char) × DocStore :=
  match storeLookup store doc_id with
  | none => (Except.error (HTTPError.notFound "Unknown doc_id".toList), store)
  | some record =>
    let top := top_k_chunks sims record.chunks 5
    let context := pyJoin ('\n' :: '\n' :: []) (top.map Prod.fst)
    let system_prompt := ("You are an AI assistant that answers questions based ONLY on the " ++
      "provided PDF context. If the answer is not in the context, say you " ++
      "don\x27t know.").toList
    let user_prompt := "Context:\n".toList ++ context ++ "\n\nQuestion: ".toList ++
      question ++ "\n\nAnswer in detail:".toList
    (Except.ok (pyStrip (gen system_prompt user_prompt)), store)

/-- `summarize` (src/backend/app.py): first 10 chunks as context. -/
def summarize (gen : List Char → List Char → List Char)
    (store : DocStore) (doc_id : List Char) :
    Except HTTPError (List Char) × DocStore :=
  match storeLookup store doc_id with
  | none => (Except.error (HTTPError.notFound "Unknown doc_id".toList), store)
  | some record =>
    let context := pyJoin ('\n' :: '\n' :: []) (record.chunks.take 10)
    let system_prompt := ("You are an expert summarizer. Create a concise, structured summary " ++
      "of the provided PDF content. Use headings and bullet points.").toList
    let user_prompt := "PDF Content:\n".toList ++ context ++
      "\n\nWrite a high-level summary:".toList
    (Except.ok (pyStrip (gen system_prompt user_prompt)), store)

/-- `search` (src/backend/app.py): top-5 chunks as `{text, score}` hits.
The query string only feeds the embedding call, which `sims` abstracts. -/
def search (sims : List ℚ) (store : DocStore) (doc_id _query : List Char) :
    Except HTTPError (List SearchHit) × DocStore :=
  match storeLookup store doc_id with
  | none => (Except.error (HTTPError.notFound "Unknown doc_id".toList), store)
  | some record =>
    let top := top_k_chunks sims record.chunks 5
    (Except.ok (top.map fun p => ⟨p.1, p.2⟩), store)

/-- `ask_question` never writes the document store. -/
theorem ask_question_store (sims : List ℚ) (gen : List Char → List Char → List Char)
    (store : DocStore) (doc_id question : List Char) :
    (ask_question sims gen store doc_id question).2 = store := by
  rw [ask_question]
  rcases h : storeLookup store doc_id with _ | record <;> simp

/-- `summarize` never writes the document store. -/
theorem summarize_store (gen : List Char → List Char → List Char)
    (store : DocStore) (doc_id : List Char) :
    (summarize gen store doc_id).2 = store := by
  rw [summarize]
  rcases h : storeLookup store doc_id with _ | record <;> simp

/-- `search` never writes the document store. -/
theorem search_store (sims : List ℚ) (store : DocStore) (doc_id query : List Char) :
    (search sims store doc_id query).2 = store := by
  rw [search]
  rcases h : storeLookup store doc_id with _ | record <;> simp

/-- `embed` returns one vector per input text. -/
theorem embed_length (provider : List Char → Nat → Except (List Char) (List ℚ))
    (texts : List (List Char)) : (embed provider texts).length = texts.length := by
  rw [embed, List.length_map]

/-- Every run of `upload_pdf` either rejects the request with a bad-request
error and leaves the store untouched, or succeeds and conses the freshly
built record onto the unchanged store. -/
theorem upload_pdf_cases (provider : List Char → Nat → Except (List Char) (List ℚ))
    (store : DocStore) (doc_id filename : List Char) (pages : List PageResult) :
    ((upload_pdf provider store doc_id filename pages).2 = store ∧
      ∃ d, (upload_pdf provider store doc_id filename pages).1 =
        Except.error (HTTPError.badRequest d)) ∨
    ((upload_pdf provider store doc_id filename pages).1 =
        Except.ok ⟨doc_id, (chunk_text (extract_text_from_pdf pages) 400).length⟩ ∧
      (upload_pdf provider store doc_id filename pages).2 =
        (doc_id, ⟨chunk_text (extract_text_from_pdf pages) 400,
          embed provider (chunk_text (extract_text_from_pdf pages) 400)⟩) :: store) := by
  rw [upload_pdf]
  cases hpdf : endsWithPdf filename with
  | false =>
    rw [if_pos (by simp)]
    exact Or.inl ⟨rfl, _, rfl⟩
  | true =>
    rw [if_neg (by simp)]
    by_cases hblank : pyStrip (extract_text_from_pdf pages) = []
    · rw [if_pos hblank]
      exact Or.inl ⟨rfl, _, rfl⟩
    · rw [if_neg hblank]
      by_cases hchunks : chunk_text (extract_text_from_pdf pages) 400 = []
      · rw [if_pos hchunks]
        exact Or.inl ⟨rfl, _, rfl⟩
      · rw [if_neg hchunks]
        exact Or.inr ⟨rfl, rfl⟩

/-- The split scanner with a nonempty accumulator always emits a word. -/
theorem pySplitAux_ne_nil : ∀ (s acc : List Char), acc ≠ [] → pySplitAux s acc ≠ []
  | [], acc, hacc => by simp [pySplitAux, hacc]
  | c :: cs, acc, hacc => by
    by_cases hws : c.isWhitespace
    · simp [pySplitAux, hws, hacc]
    · simp only [pySplitAux, hws, if_neg, not_false_iff]
      exact pySplitAux_ne_nil cs (c :: acc) (by simp)

/-- A text splits to no words exactly when all its characters are
whitespace. -/
theorem pySplit_eq_nil_iff : ∀ (s : List Char),
    (pySplit s = [] ↔ ∀ c ∈ s, c.isWhitespace = true) := by
  have H : ∀ (s : List Char), pySplitAux s [] = [] ↔ ∀ c ∈ s, c.isWhitespace = true := by
    intro s
    induction s with
    | nil => simp [pySplitAux]
    | cons c cs ih =>
      by_cases hws : c.isWhitespace
      · simp only [pySplitAux, hws, if_pos, if_pos rfl]
        constructor
        · intro h d hd
          rcases List.mem_cons.mp hd with rfl | hmem
          · exact hws
          · exact (ih.mp h) d hmem
        · intro h
          exact ih.mpr fun d hd => h d (by simp [hd])
      · constructor
        · intro h
          exact absurd h (by
            simp only [pySplitAux, hws, if_neg, not_false_iff]
            exact pySplitAux_ne_nil cs [c] (by simp))
        · intro h
          exact absurd (h c (by simp)) (by simpa using hws)
  exact fun s => H s

/-- Stripping an all-whitespace text yields the empty string. -/
theorem pyStrip_eq_nil (s : List Char) (h : ∀ c ∈ s, c.isWhitespace = true) :
    pyStrip s = [] := by
  rw [pyStrip]
  have h1 : s.dropWhile Char.isWhitespace = [] :=
    List.dropWhile_eq_nil_iff.mpr h
  rw [h1]
  rfl

/-- If chunking produces no chunks, the text splits to no words. -/
theorem chunk_text_eq_nil (text : List Char) (n : Nat)
    (h : chunk_text text n = []) : pySplit text = [] := by
  rw [chunk_text] at h
  have hg : chunkGo n (pySplit text) [] = [] := by
    rcases hg : chunkGo n (pySplit text) [] with _ | ⟨g, gs⟩
    · rfl
    · rw [hg] at h; simp at h
  have := chunkGo_join n (pySplit text) []
  rw [hg] at this
  simpa using this.symm

/-- C6: for every upload to the primary service, a filename not ending in
`.pdf` (case-insensitive), a blank extracted text, or an empty chunking each
fail with a 400 bad-request error and leave the in-memory document store
unchanged; the request returns an error only with the store unchanged, and a
document record is stored only on the success path (as a new front entry). -/
theorem upload_error_paths (provider : List Char → Nat → Except (List Char) (List ℚ))
    (store : DocStore) (doc_id filename : List Char) (pages : List PageResult) :
    (endsWithPdf filename = false →
        upload_pdf provider store doc_id filename pages =
          (Except.error (HTTPError.badRequest "Only PDF files are supported".toList), store)) ∧
    (endsWithPdf filename = true →
        pyStrip (extract_text_from_pdf pages) = [] →
        upload_pdf provider store doc_id filename pages =
          (Except.error (HTTPError.badRequest "Could not extract text from PDF".toList), store)) ∧
    (chunk_text (extract_text_from_pdf pages) 400 = [] →
        ∃ d, upload_pdf provider store doc_id filename pages =
          (Except.error (HTTPError.badRequest d), store)) ∧
    (∀ e, (upload_pdf provider store doc_id filename pages).1 = Except.error e →
        (upload_pdf provider store doc_id filename pages).2 = store) ∧
    (∀ r, (upload_pdf provider store doc_id filename pages).1 = Except.ok r →
        (upload_pdf provider store doc_id filename pages).2 =
          (doc_id, ⟨chunk_text (extract_text_from_pdf pages) 400,
            embed provider (chunk_text (extract_text_from_pdf pages) 400)⟩) :: store) := by
  refine ⟨?_, ?_, ?_, ?_, ?_⟩
  · intro hpdf
    rw [upload_pdf, if_pos (by simp [hpdf])]
  · intro hpdf hblank
    rw [upload_pdf, if_neg (by simp [hpdf]), if_pos hblank]
  · intro hchunks
    have hsplit : pySplit (extract_text_from_pdf pages) = [] :=
      chunk_text_eq_nil _ 400 hchunks
    have hallws : ∀ c ∈ extract_text_from_pdf pages, c.isWhitespace = true :=
      (pySplit_eq_nil_iff _).mp hsplit
    have hblank : pyStrip (extract_text_from_pdf pages) = [] :=
      pyStrip_eq_nil _ hallws
    cases hpdf : endsWithPdf filename with
    | false =>
      exact ⟨_, by rw [upload_pdf, if_pos (by simp [hpdf])]⟩
    | true =>
      exact ⟨_, by rw [upload_pdf, if_neg (by simp [hpdf]), if_pos hblank]⟩
  · intro e he
    rcases upload_pdf_cases provider store doc_id filename pages with
      ⟨hs, _⟩ | ⟨hok, _⟩
    · exact hs
    · rw [hok] at he; simp at he
  · intro r hr
    rcases upload_pdf_cases provider store doc_id filename pages with
      ⟨_, d, herr⟩ | ⟨_, hs⟩
    · rw [herr] at hr; simp at hr
    · exact hs

/-- Witness for C6: uploading `"notes.txt"` to an empty store is rejected
with the wrong-extension 400 error and the store stays empty. -/
theorem upload_error_paths_witness :
    upload_pdf alwaysFailProvider ([] : List (List Char × DocRecord)) "d1".toList
        "notes.txt".toList [] =
      (Except.error (HTTPError.badRequest "Only PDF files are supported".toList),
        ([] : List (List Char × DocRecord))) :=
  (upload_error_paths alwaysFailProvider ([] : List (List Char × DocRecord)) "d1".toList
    "notes.txt".toList []).1 (by decide)

/-- C7: a request to `/ask`, `/summary` or `/search` whose `doc_id` is not a
key of the in-memory document store fails with a 404 not-found error and
leaves the document store unchanged. -/
theorem unknown_docid_404 (sims : List ℚ) (gen : List Char → List Char → List Char)
    (store : DocStore) (doc_id question query : List Char)
    (h : storeLookup store doc_id = none) :
    ask_question sims gen store doc_id question =
      (Except.error (HTTPError.notFound "Unknown doc_id".toList), store) ∧
    summarize gen store doc_id =
      (Except.error (HTTPError.notFound "Unknown doc_id".toList), store) ∧
    search sims store doc_id query =
      (Except.error (HTTPError.notFound "Unknown doc_id".toList), store) := by
  refine ⟨?_, ?_, ?_⟩
  · rw [ask_question]
    simp only [h]
  · rw [summarize]
    simp only [h]
  · rw [search]
    simp only [h]

/-- Witness for C7: the three endpoints on the empty store and an unknown
identifier. -/
theorem unknown_docid_404_witness :
    ask_question [] (fun _ _ => []) ([] : List (List Char × DocRecord)) "nope".toList "q".toList =
      (Except.error (HTTPError.notFound "Unknown doc_id".toList),
        ([] : List (List Char × DocRecord))) ∧
    summarize (fun _ _ => []) ([] : List (List Char × DocRecord)) "nope".toList =
      (Except.error (HTTPError.notFound "Unknown doc_id".toList),
        ([] : List (List Char × DocRecord))) ∧
    search [] ([] : List (List Char × DocRecord)) "nope".toList "q".toList =
      (Except.error (HTTPError.notFound "Unknown doc_id".toList),
        ([] : List (List Char × DocRecord))) :=
  unknown_docid_404 [] (fun _ _ => []) ([] : List (List Char × DocRecord))
    "nope".toList "q".toList "q".toList rfl

/-- A document identifier looks up to `none` exactly when it is not among
the stored keys. -/
theorem storeLookup_none_iff : ∀ (store : DocStore) (key : List Char),
    storeLookup store key = none ↔ key ∉ store.map Prod.fst
  | [], key => by
    simp [storeLookup]
  | (k, v) :: rest, key => by
    by_cases hk : key = k
    · simp [storeLookup, hk]
    · simp only [storeLookup, if_neg hk, List.map_cons, List.mem_cons]
      rw [storeLookup_none_iff rest key]
      simp [hk]

/-- The reachable states of the primary service's document store: empty at
startup, then stepped by the four endpoint handlers; `uuid.uuid4()` is
modelled by an arbitrary identifier fresh for the current store. -/
inductive Reachable : DocStore → Prop where
  | init : Reachable ([] : DocStore)
  | upload (provider : List Char → Nat → Except (List Char) (List ℚ))
      (s : DocStore) (doc_id filename : List Char) (pages : List PageResult)
      (hfresh : storeLookup s doc_id = none) :
      Reachable s → Reachable (upload_pdf provider s doc_id filename pages).2
  | ask (sims : List ℚ) (gen : List Char → List Char → List Char)
      (s : DocStore) (doc_id question : List Char) :
      Reachable s → Reachable (ask_question sims gen s doc_id question).2
  | summary (gen : List Char → List Char → List Char) (s : DocStore)
      (doc_id : List Char) :
      Reachable s → Reachable (summarize gen s doc_id).2
  | searchStep (sims : List ℚ) (s : DocStore) (doc_id query : List Char) :
      Reachable s → Reachable (search sims s doc_id query).2

/-- C8: in every reachable state of the primary service every stored record
has exactly one embedding vector per chunk and the stored identifiers are
pairwise distinct; `/ask`, `/summary` and `/search` never write the store;
and a successful upload conses a single new record under the fresh
identifier onto the otherwise unchanged store. -/
theorem store_invariant (s : DocStore) (h : Reachable s) :
    (∀ p ∈ s, p.2.chunks.length = p.2.embeddings.length) ∧
    (s.map Prod.fst).Nodup ∧
    (∀ sims gen doc_id question, (ask_question sims gen s doc_id question).2 = s) ∧
    (∀ gen doc_id, (summarize gen s doc_id).2 = s) ∧
    (∀ sims doc_id query, (search sims s doc_id query).2 = s) ∧
    (∀ provider doc_id filename pages r,
        (upload_pdf provider s doc_id filename pages).1 = Except.ok r →
        (upload_pdf provider s doc_id filename pages).2 =
          (doc_id, ⟨chunk_text (extract_text_from_pdf pages) 400,
            embed provider (chunk_text (extract_text_from_pdf pages) 400)⟩) :: s) := by
  have hread : ∀ s' : DocStore,
      (∀ sims gen doc_id question, (ask_question sims gen s' doc_id question).2 = s') ∧
      (∀ gen doc_id, (summarize gen s' doc_id).2 = s') ∧
      (∀ sims doc_id query, (search sims s' doc_id query).2 = s') ∧
      (∀ provider doc_id filename pages r,
          (upload_pdf provider s' doc_id filename pages).1 = Except.ok r →
          (upload_pdf provider s' doc_id filename pages).2 =
            (doc_id, ⟨chunk_text (extract_text_from_pdf pages) 400,
              embed provider (chunk_text (extract_text_from_pdf pages) 400)⟩) :: s') := by
    intro s'
    refine ⟨fun sims gen d q => ask_question_store sims gen s' d q,
      fun gen d => summarize_store gen s' d,
      fun sims d q => search_store sims s' d q, ?_⟩
    intro provider d fn pages r hr
    rcases upload_pdf_cases provider s' d fn pages with ⟨_, e, herr⟩ | ⟨_, hs⟩
    · rw [herr] at hr; simp at hr
    · exact hs
  have hinv : (∀ p ∈ s, p.2.chunks.length = p.2.embeddings.length) ∧
      (s.map Prod.fst).Nodup := by
    induction h with
    | init => exact ⟨by simp, by simp⟩
    | upload provider s' doc_id filename pages hfresh _ ih =>
      rcases upload_pdf_cases provider s' doc_id filename pages with
        ⟨hs, _⟩ | ⟨_, hs⟩
      · rw [hs]; exact ih
      · rw [hs]
        refine ⟨?_, ?_⟩
        · intro p hp
          rcases List.mem_cons.mp hp with rfl | hmem
          · exact (embed_length provider _).symm
          · exact ih.1 p hmem
        · rw [List.map_cons]
          refine List.nodup_cons.mpr ⟨?_, ih.2⟩
          exact (storeLookup_none_iff s' doc_id).mp hfresh
    | ask sims gen s' doc_id question _ ih =>
      rw [ask_question_store]; exact ih
    | summary gen s' doc_id _ ih =>
      rw [summarize_store]; exact ih
    | searchStep sims s' doc_id query _ ih =>
      rw [search_store]; exact ih
  exact ⟨hinv.1, hinv.2, (hread s).1, (hread s).2.1, (hread s).2.2.1, (hread s).2.2.2⟩

/-- Witness for C8 at the initial (empty, reachable) store: `/ask` and
`/summary` leave it unchanged. -/
theorem store_invariant_witness :
    (ask_question [] (fun _ _ => []) ([] : DocStore) "d".toList "q".toList).2 =
      ([] : DocStore) ∧
    (summarize (fun _ _ => []) ([] : DocStore) "d".toList).2 = ([] : DocStore) :=
  ⟨(store_invariant ([] : DocStore) Reachable.init).2.2.1 [] (fun _ _ => [])
      "d".toList "q".toList,
    (store_invariant ([] : DocStore) Reachable.init).2.2.2.1 (fun _ _ => [])
      "d".toList⟩

/-- State of the alternate/minimal backend: the single-document chunk store
plus the set of temporary upload files currently on disk.  The chunk store
is modelled from the spec: `vector_store.py` is not in the repository
snapshot; §4.5 specifies `clear()` discarding all stored chunks and
`add_text(chunks)` appending the given chunks to the current set. -/
structure AltState where
  storeChunks : List (List Char)
  tempFiles : List (List Char)

/-- A dynamically typed Python value passed around by the alternate
backend: a PDF byte buffer (modelled by its parsed page outcomes) or a
`str` such as a filesystem path. -/
inductive PyVal where
  | pyBytes (pages : List PageResult)
  | pyStr (s : List Char)

/-- `extract_text_from_pdf` (src/backend/pdf_utils.py) as invoked on a
dynamically typed argument: its body calls `PdfReader(io.BytesIO(file_bytes))`,
and `io.BytesIO` accepts a bytes buffer but raises `TypeError` on a `str`. -/
def extract_text_from_pdf_dyn : PyVal → Except (List Char) (List Char)
  | PyVal.pyBytes pages => Except.ok (extract_text_from_pdf pages)
  | PyVal.pyStr _ => Except.error "a bytes-like object is required, not str".toList

/-- The alternate backend upload response `{message, filename}`. -/
structure AltUploadResponse where
  message : List Char
  filename : List Char

/-- `upload_pdf` (src/backend/main.py, alternate/minimal backend).
`temp_path` models the fresh `tempfile.NamedTemporaryFile(suffix=".pdf")`
name, and `filePages` the parse of the uploaded bytes written to it.
Line 38 of main.py passes `temp_file_path` — a `str` — to
`extract_text_from_pdf`; the `except` clause turns the raised error into an
HTTP 500, and the `finally` clause deletes the temporary file in every
case. -/
def upload_pdf_alt (st : AltState) (filename temp_path : List Char)
    (_filePages : List PageResult) : Except HTTPError AltUploadResponse × AltState :=
  if !endsWithPdf filename then
    (Except.error (HTTPError.badRequest "Invalid file type. Please upload a PDF.".toList), st)
  else
    -- `with tempfile.NamedTemporaryFile(...) as temp_file: temp_file.write(...)`
    let st1 : AltState := { st with tempFiles := temp_path :: st.tempFiles }
    -- `text = extract_text_from_pdf(temp_file_path)` — the path, not the bytes
    match extract_text_from_pdf_dyn (PyVal.pyStr temp_path) with
    | Except.error e =>
      (Except.error (HTTPError.serverError ("An error occurred: ".toList ++ e)),
        { st1 with tempFiles := st1.tempFiles.filter (fun q => !(q == temp_path)) })
    | Except.ok text =>
      let chunks := split_text text
      -- `store.clear(); store.add_text(chunks)`
      let st2 : AltState := { st1 with storeChunks := chunks }
      (Except.ok ⟨"PDF processed successfully".toList, filename⟩,
        { st2 with tempFiles := st2.tempFiles.filter (fun q => !(q == temp_path)) })

/-- C2: evaluation of the alternate backend's `POST /upload` at its
failing inputs.  For every upload whose filename ends in `.pdf`
(case-insensitive), the handler passes the temporary file path — a `str` —
to `extract_text_from_pdf`, whose `io.BytesIO` call raises `TypeError`, so
the request always returns a 500 server error, the single-document store is
never repopulated, and the temporary file is deleted (the one part of the
claim the code does honor). -/
theorem upload_alt_type_bug (st : AltState) (filename temp_path : List Char)
    (_filePages : List PageResult) (hpdf : endsWithPdf filename = true)
    (hfresh : temp_path ∉ st.tempFiles) :
    (upload_pdf_alt st filename temp_path filePages).1 =
      Except.error (HTTPError.serverError
        ("An error occurred: ".toList ++
          "a bytes-like object is required, not str".toList)) ∧
    ((upload_pdf_alt st filename temp_path filePages).2).storeChunks = st.storeChunks ∧
    ((upload_pdf_alt st filename temp_path filePages).2).tempFiles = st.tempFiles := by
  rw [upload_pdf_alt, if_neg (by simp [hpdf])]
  refine ⟨rfl, rfl, ?_⟩
  show (temp_path :: st.tempFiles).filter (fun q => !(q == temp_path)) = st.tempFiles
  rw [List.filter_cons]
  simp only [beq_self_eq_true, Bool.not_true, Bool.false_eq_true, if_false]
  refine List.filter_eq_self.mpr ?_
  intro q hq
  simp only [Bool.not_eq_true']
  exact beq_eq_false_iff_ne.mpr (fun hqe => hfresh (hqe ▸ hq))

/-- Witness for C2's theorem: a concrete `.pdf` upload on the pristine
state. -/
theorem upload_alt_type_bug_witness :
    (upload_pdf_alt ⟨[], []⟩ "doc.pdf".toList "/tmp/u.pdf".toList []).1 =
      Except.error (HTTPError.serverError
        ("An error occurred: ".toList ++
          "a bytes-like object is required, not str".toList)) ∧
    ((upload_pdf_alt ⟨[], []⟩ "doc.pdf".toList "/tmp/u.pdf".toList []).2).storeChunks =
      (⟨[], []⟩ : AltState).storeChunks ∧
    ((upload_pdf_alt ⟨[], []⟩ "doc.pdf".toList "/tmp/u.pdf".toList []).2).tempFiles =
      (⟨[], []⟩ : AltState).tempFiles :=
  upload_alt_type_bug ⟨[], []⟩ "doc.pdf".toList "/tmp/u.pdf".toList []
    (by decide) (by decide)

end SmartPdf
